import Mathlib

/-!
Shallow embedding of the dual-state transition/animation engine and the
gesture-signal interpreter of the `tree1white` scene application.

The per-entity kinematics (baubles, photo panels, seasonal elements, fairy
lights) advance `currentPos` with `THREE.Vector3.lerp(target, delta * k)`;
the foliage class advances a shared scalar with `THREE.MathUtils.damp`.
The gesture controller turns one recognition result per video frame into a
scene-state command, a rotation velocity and a hysteresis-debounced pinch
edge event.  Exact rational arithmetic stands in for JS numbers wherever
the source code is algebraic; `Real` is used where the source calls
`Math.sin`/`Math.cos`/`Math.exp`/`Math.sqrt`.
-/

/-- Shallow embedding of `THREE.Vector3` (three components of type `α`). -/
structure V3 (α : Type) where
  x : α
  y : α
  z : α
deriving DecidableEq, Repr

/-- `THREE.Vector3.lerp(v, alpha)`: `this.x += (v.x - this.x) * alpha`,
componentwise, returning the updated vector. -/
def V3.lerp {α : Type} [LinearOrderedField α] (cur target : V3 α) (a : α) : V3 α :=
  ⟨cur.x + (target.x - cur.x) * a,
   cur.y + (target.y - cur.y) * a,
   cur.z + (target.z - cur.z) * a⟩

/-- Squared Euclidean distance between two vectors. -/
def V3.dist2 {α : Type} [LinearOrderedField α] (p q : V3 α) : α :=
  (p.x - q.x) ^ 2 + (p.y - q.y) ^ 2 + (p.z - q.z) ^ 2

/-- `p` lies on the closed segment from `a` to `b`. -/
def V3.onSeg {α : Type} [LinearOrderedField α] (a b p : V3 α) : Prop :=
  ∃ s : α, 0 ≤ s ∧ s ≤ 1 ∧ p = V3.lerp a b s

/-- `CONFIG.tree.height` (22). -/
def treeHeight : ℝ := 22

/-- `CONFIG.tree.radius` (9). -/
def treeRadius : ℝ := 9

/-- `getTreePosition` from the source, with the three `Math.random()`
draws made explicit as arguments `u1 u2 u3 ∈ [0,1)`:
`y = u1*h - h/2`, `normalizedY = (y + h/2)/h`,
`currentRadius = rBase * (1 - normalizedY)`, `theta = u2 * π * 2`,
`r = u3 * currentRadius`, returning `(r cos θ, y, r sin θ)`. -/
noncomputable def getTreePosition (u1 u2 u3 : ℝ) : V3 ℝ :=
  let h := treeHeight
  let rBase := treeRadius
  let y := u1 * h - h / 2
  let normalizedY := (y + h / 2) / h
  let currentRadius := rBase * (1 - normalizedY)
  let theta := u2 * Real.pi * 2
  let r := u3 * currentRadius
  ⟨r * Real.cos theta, y, r * Real.sin theta⟩

/-- The cone radius of the tree silhouette at height `y`:
`R * (1 - (y + H/2) / H)`. -/
noncomputable def coneRadiusAt (y : ℝ) : ℝ :=
  treeRadius * (1 - (y + treeHeight / 2) / treeHeight)

/-- Horizontal distance of a point from the tree axis. -/
noncomputable def horizDist (v : V3 ℝ) : ℝ :=
  Real.sqrt (v.x ^ 2 + v.z ^ 2)

/-- Modelled from the spec: under sampling that is uniform *by area* inside
the disk of radius `R`, the probability of landing within distance `r` of
the center is the area fraction `(π r²)/(π R²)`.  (The repository has no
such sampler; this is the spec's stated contract, used for comparison.) -/
noncomputable def areaUniformProb (r R : ℝ) : ℝ :=
  (Real.pi * r ^ 2) / (Real.pi * R ^ 2)

/-- Bauble lerp rate, from `delta * (isFormed ? 1.0 : 0.7)`. -/
def baubleRate (isFormed : Bool) (delta : ℚ) : ℚ :=
  delta * (if isFormed then 1.0 else 0.7)

/-- One positional tick of a bauble:
`objData.currentPos.lerp(isFormed ? targetPos : chaosPos, delta * (isFormed ? 1.0 : 0.7))`. -/
def baubleTick (isFormed : Bool) (delta : ℚ) (chaosPos targetPos cur : V3 ℚ) : V3 ℚ :=
  V3.lerp cur (if isFormed then targetPos else chaosPos) (baubleRate isFormed delta)

/-- One positional tick of a seasonal element:
`objData.currentPos.lerp(isFormed ? targetPos : chaosPos, delta * 1.5)`. -/
def elementTick (isFormed : Bool) (delta : ℚ) (chaosPos targetPos cur : V3 ℚ) : V3 ℚ :=
  V3.lerp cur (if isFormed then targetPos else chaosPos) (delta * 1.5)

/-- One positional tick of a fairy light:
`objData.currentPos.lerp(isFormed ? targetPos : chaosPos, delta * 2.0)`. -/
def lightTick (isFormed : Bool) (delta : ℚ) (chaosPos targetPos cur : V3 ℚ) : V3 ℚ :=
  V3.lerp cur (if isFormed then targetPos else chaosPos) (delta * 2.0)

/-- `THREE.MathUtils.lerp(x, y, t) = (1 - t) * x + t * y`. -/
def lerp1 (x y t : ℝ) : ℝ := (1 - t) * x + t * y

/-- `THREE.MathUtils.damp(x, y, lambda, dt) = lerp(x, y, 1 - exp(-lambda*dt))`. -/
noncomputable def damp (x y lambda dt : ℝ) : ℝ :=
  lerp1 x y (1 - Real.exp (-lambda * dt))

/-- Foliage per-frame progress update:
`uProgress = MathUtils.damp(uProgress, state === 'FORMED' ? 1 : 0, 1.5, delta)`. -/
noncomputable def foliageProgressTick (isFormed : Bool) (progress delta : ℝ) : ℝ :=
  damp progress (if isFormed then 1 else 0) 1.5 delta

/-- Effectful operations performed on a photo-panel group in one frame,
recorded in program order. -/
inductive PhotoOp where
  | setPos (p : V3 ℝ)
  | lookAt (t : V3 ℝ)
  | addRotX (a : ℝ)
  | addRotY (a : ℝ)
  | addRotZ (a : ℝ)

/-- One frame of the photo-panel update (`PhotoOrnaments.useFrame` body,
for one panel): lerp `currentPos` toward the state-selected target with
rate `delta * (isFormed ? 0.8 * weight : 0.5)`, copy it to the group
position; in FORMED state `lookAt` the point
`(pos.x * 2, pos.y + 0.5, pos.z * 2)` and then add the sinusoidal wobble
to `rotation.x`/`rotation.z`; otherwise add the tumble rotation.
Returns the new `currentPos` and the ordered list of group operations. -/
noncomputable def photoTick (isFormed : Bool) (delta time weight wobbleSpeed wobbleOffset : ℝ)
    (rotSpeed chaosPos targetPos cur : V3 ℝ) : V3 ℝ × List PhotoOp :=
  let target := if isFormed then targetPos else chaosPos
  let newPos := V3.lerp cur target (delta * (if isFormed then 0.8 * weight else 0.5))
  if isFormed then
    let lookTarget : V3 ℝ := ⟨newPos.x * 2, newPos.y + 0.5, newPos.z * 2⟩
    let wobbleX := Real.sin (time * wobbleSpeed + wobbleOffset) * 0.04
    let wobbleZ := Real.cos (time * wobbleSpeed * 0.8 + wobbleOffset) * 0.04
    (newPos, [PhotoOp.setPos newPos, PhotoOp.lookAt lookTarget,
              PhotoOp.addRotX wobbleX, PhotoOp.addRotZ wobbleZ])
  else
    (newPos, [PhotoOp.setPos newPos, PhotoOp.addRotX (delta * rotSpeed.x),
              PhotoOp.addRotY (delta * rotSpeed.y), PhotoOp.addRotZ (delta * rotSpeed.z)])

/-- One classified gesture (`categoryName`, `score`). -/
structure Gesture where
  name : String
  score : ℚ
deriving DecidableEq, Repr

/-- One hand landmark (normalized coordinates). -/
structure Landmark where
  x : ℚ
  y : ℚ
  z : ℚ
deriving DecidableEq, Repr, Inhabited

/-- One recognition result (`results.gestures`, `results.landmarks`),
lists indexed per detected hand. -/
structure Frame where
  gestures : List (List Gesture)
  landmarks : List (List Landmark)
deriving DecidableEq, Repr

/-- Events emitted by the gesture controller within one frame, in call
order: `onGesture` (scene-state command), `onMove` (rotation velocity),
`onPinch` (pinch edge). -/
inductive Ev where
  | cmd (s : String)
  | move (v : ℚ)
  | pinch (start : Bool)
deriving DecidableEq, Repr

/-- `results.gestures[0][0]` (the top classified gesture of the first
hand); a placeholder when absent. -/
def topGesture (f : Frame) : Gesture :=
  (f.gestures.headD []).headD ⟨"None", 0⟩

/-- `results.landmarks[0]` (the first hand's landmark list). -/
def handLandmarks (f : Frame) : List Landmark :=
  f.landmarks.headD []

/-- The rotation deadzone (`const deadzone = 0.05`). -/
def deadzone : ℚ := 0.05

/-- The rotation sensitivity (`const sensitivity = 1.5`). -/
def sensitivity : ℚ := 1.5

/-- The rotation-velocity mapping applied to `rawOffset = 0.5 - handX`:
`if (|rawOffset| > deadzone) { effectiveOffset = rawOffset > 0 ?
rawOffset - deadzone : rawOffset + deadzone; targetSpeed =
-effectiveOffset * sensitivity } else targetSpeed = 0`. -/
def targetSpeedOfOffset (rawOffset : ℚ) : ℚ :=
  if |rawOffset| > deadzone then
    let effectiveOffset := (if rawOffset > 0 then rawOffset - deadzone else rawOffset + deadzone)
    let targetSpeed := -effectiveOffset * sensitivity
    targetSpeed
  else 0

/-- Rotation velocity from the primary landmark's horizontal coordinate:
`rawOffset = 0.5 - handX` fed to the deadzone/sensitivity remap. -/
def computeTargetSpeed (handX : ℚ) : ℚ :=
  targetSpeedOfOffset (0.5 - handX)

/-- Squared distance between two landmarks.  The source compares
`Math.sqrt(dx² + dy² + dz²)` against the constants `0.05`/`0.08`; the
embedding compares the radicand against the squared constants, which is
equivalent since both sides are nonnegative. -/
def lmDist2 (a b : Landmark) : ℚ :=
  (a.x - b.x) ^ 2 + (a.y - b.y) ^ 2 + (a.z - b.z) ^ 2

/-- Squared thumb-tip/index-tip distance of a frame
(landmarks 4 and 8 of the first hand). -/
def pinchDist2 (f : Frame) : ℚ :=
  lmDist2 ((handLandmarks f).getD 4 default) ((handLandmarks f).getD 8 default)

/-- The thumb-tip/index-tip distance as the source computes it
(`Math.sqrt` of the sum of squared coordinate differences). -/
noncomputable def pinchDistance (f : Frame) : ℝ :=
  Real.sqrt ((pinchDist2 f : ℚ) : ℝ)

/-- One step of the gesture controller (`predictWebcam` body after
recognition, without the debug drawing): state is the pinch flag
`isPinchingRef.current`; returns the new flag and the events emitted in
call order.  Mirrors the source:
* `results.gestures.length > 0`: read the top gesture; if its score
  exceeds `0.4`, `Open_Palm` commands CHAOS and `Closed_Fist` commands
  FORMED; if `results.landmarks.length > 0`, emit `onMove` with the
  deadzone-remapped speed, then run the pinch hysteresis on the
  thumb/index distance (`< 0.05` with gesture not `Closed_Fist` starts a
  pinch; otherwise `> 0.08` while pinching ends it);
* otherwise: `onMove(0)` and a forced pinch release if pinching. -/
def processFrame (isPinching : Bool) (f : Frame) : Bool × List Ev :=
  match f.gestures with
  | _ :: _ =>
    let g := topGesture f
    let cmdEvs : List Ev :=
      if g.score > 0.4 then
        (if g.name = "Open_Palm" then [Ev.cmd "CHAOS"] else []) ++
        (if g.name = "Closed_Fist" then [Ev.cmd "FORMED"] else [])
      else []
    match f.landmarks with
    | _ :: _ =>
      let handX := ((handLandmarks f).getD 0 default).x
      let speed := computeTargetSpeed handX
      let d2 := pinchDist2 f
      if d2 < 0.05 ^ 2 ∧ g.name ≠ "Closed_Fist" then
        if isPinching then (true, cmdEvs ++ [Ev.move speed])
        else (true, cmdEvs ++ [Ev.move speed, Ev.pinch true])
      else
        if isPinching ∧ d2 > 0.08 ^ 2 then (false, cmdEvs ++ [Ev.move speed, Ev.pinch false])
        else (isPinching, cmdEvs ++ [Ev.move speed])
    | [] => (isPinching, cmdEvs)
  | [] =>
    (false, Ev.move 0 :: (if isPinching then [Ev.pinch false] else []))

/-- Run the gesture controller over a sequence of frames, threading the
pinch flag and collecting all emitted events in order. -/
def runFrames (isPinching : Bool) : List Frame → Bool × List Ev
  | [] => (isPinching, [])
  | f :: fs =>
    let r := processFrame isPinching f
    let rest := runFrames r.1 fs
    (rest.1, r.2 ++ rest.2)

/-- Whether an event is a pinch edge event. -/
def isPinchEv : Ev → Bool
  | Ev.pinch _ => true
  | _ => false

/-- Whether an event is a scene-state command. -/
def isCmdEv : Ev → Bool
  | Ev.cmd _ => true
  | _ => false

/-- Replace the top classified gesture's confidence score, leaving the
gesture name, the other gestures and the landmarks unchanged. -/
def setTopScore (f : Frame) : ℚ → Frame
  | s =>
    match f.gestures with
    | (g :: gs) :: rest => ⟨(⟨g.name, s⟩ :: gs) :: rest, f.landmarks⟩
    | _ => f

/-- A run of plain lerp ticks toward the fixed target `t`, one tick per
rate in the list. -/
def lerpRun {α : Type} [LinearOrderedField α] (t cur : V3 α) (rates : List α) : V3 α :=
  rates.foldl (fun p a => V3.lerp p t a) cur

/-- A recognition result whose thumb/index distance `0.06` lies strictly
inside the hysteresis band, used as a concrete test input. -/
def bandFrame : Frame :=
  ⟨[[⟨"None", 1⟩]],
   [[⟨1/2, 0, 0⟩, ⟨0, 0, 0⟩, ⟨0, 0, 0⟩, ⟨0, 0, 0⟩, ⟨0, 0, 0⟩,
     ⟨0, 0, 0⟩, ⟨0, 0, 0⟩, ⟨0, 0, 0⟩, ⟨3/50, 0, 0⟩]]⟩

/-- A recognition result whose primary landmark sits at `x = 0.3`, used
as a concrete test input. -/
def leftHandFrame : Frame :=
  ⟨[[⟨"None", 1⟩]],
   [[⟨3/10, 0, 0⟩, ⟨0, 0, 0⟩, ⟨0, 0, 0⟩, ⟨0, 0, 0⟩, ⟨1, 0, 0⟩,
     ⟨0, 0, 0⟩, ⟨0, 0, 0⟩, ⟨0, 0, 0⟩, ⟨0, 0, 0⟩]]⟩

/-- A recognition result whose top gesture has confidence `0.3`, below
the command threshold, used as a concrete test input. -/
def lowScoreFrame : Frame :=
  ⟨[[⟨"Open_Palm", 3/10⟩]],
   [[⟨1/2, 0, 0⟩, ⟨0, 0, 0⟩, ⟨0, 0, 0⟩, ⟨0, 0, 0⟩, ⟨1, 0, 0⟩,
     ⟨0, 0, 0⟩, ⟨0, 0, 0⟩, ⟨0, 0, 0⟩, ⟨0, 0, 0⟩]]⟩

/-! ### Generic lemmas about the per-entity position lerp -/

theorem V3.ext {α : Type} {p q : V3 α} (hx : p.x = q.x) (hy : p.y = q.y)
    (hz : p.z = q.z) : p = q := by
  cases p
  cases q
  simp_all

theorem V3.dist2_nonneg {α : Type} [LinearOrderedField α] (p q : V3 α) :
    0 ≤ V3.dist2 p q := by
  unfold V3.dist2
  positivity

theorem V3.lerp_zero {α : Type} [LinearOrderedField α] (a b : V3 α) :
    V3.lerp a b 0 = a := by
  apply V3.ext <;> simp [V3.lerp]

theorem V3.dist2_lerp {α : Type} [LinearOrderedField α] (p t : V3 α) (a : α) :
    V3.dist2 (V3.lerp p t a) t = (1 - a) ^ 2 * V3.dist2 p t := by
  unfold V3.dist2 V3.lerp
  ring

theorem V3.dist2_lerp_le {α : Type} [LinearOrderedField α] (p t : V3 α) {a : α}
    (h0 : 0 ≤ a) (h1 : a ≤ 1) :
    V3.dist2 (V3.lerp p t a) t ≤ V3.dist2 p t := by
  rw [V3.dist2_lerp]
  have h2 : (1 - a) ^ 2 ≤ 1 := by nlinarith
  exact mul_le_of_le_one_left (V3.dist2_nonneg p t) h2

theorem V3.lerp_lerp_right {α : Type} [LinearOrderedField α] (A B : V3 α) (s a : α) :
    V3.lerp (V3.lerp A B s) B a = V3.lerp A B (s + a - s * a) := by
  apply V3.ext <;> (simp [V3.lerp]; ring)

theorem V3.lerp_lerp_left {α : Type} [LinearOrderedField α] (A B : V3 α) (s a : α) :
    V3.lerp (V3.lerp A B s) A a = V3.lerp A B (s * (1 - a)) := by
  apply V3.ext <;> (simp [V3.lerp]; ring)

theorem V3.onSeg_self_left {α : Type} [LinearOrderedField α] (A B : V3 α) :
    V3.onSeg A B A :=
  ⟨0, le_refl 0, zero_le_one, (V3.lerp_zero A B).symm⟩

theorem V3.onSeg_lerp_right {α : Type} [LinearOrderedField α] {A B p : V3 α} {a : α}
    (h : V3.onSeg A B p) (h0 : 0 ≤ a) (h1 : a ≤ 1) :
    V3.onSeg A B (V3.lerp p B a) := by
  obtain ⟨s, hs0, hs1, rfl⟩ := h
  refine ⟨s + a - s * a, by nlinarith, by nlinarith, ?_⟩
  rw [V3.lerp_lerp_right]

theorem V3.onSeg_lerp_left {α : Type} [LinearOrderedField α] {A B p : V3 α} {a : α}
    (h : V3.onSeg A B p) (h0 : 0 ≤ a) (h1 : a ≤ 1) :
    V3.onSeg A B (V3.lerp p A a) := by
  obtain ⟨s, hs0, hs1, rfl⟩ := h
  refine ⟨s * (1 - a), by nlinarith, by nlinarith, ?_⟩
  rw [V3.lerp_lerp_left]

theorem lerpRun_nil {α : Type} [LinearOrderedField α] (t cur : V3 α) :
    lerpRun t cur [] = cur := rfl

theorem lerpRun_cons {α : Type} [LinearOrderedField α] (t cur : V3 α) (a : α)
    (rs : List α) : lerpRun t cur (a :: rs) = lerpRun t (V3.lerp cur t a) rs := rfl

theorem lerpRun_onSeg_right {α : Type} [LinearOrderedField α] {A B cur : V3 α}
    {rates : List α} (h : V3.onSeg A B cur) (hr : ∀ a ∈ rates, 0 ≤ a ∧ a ≤ 1) :
    V3.onSeg A B (lerpRun B cur rates) := by
  induction rates generalizing cur with
  | nil => exact h
  | cons a rs ih =>
    rw [lerpRun_cons]
    exact ih (V3.onSeg_lerp_right h (hr a (List.mem_cons_self a rs)).1
        (hr a (List.mem_cons_self a rs)).2)
      (fun b hb => hr b (List.mem_cons_of_mem a hb))

theorem lerpRun_onSeg_left {α : Type} [LinearOrderedField α] {A B cur : V3 α}
    {rates : List α} (h : V3.onSeg A B cur) (hr : ∀ a ∈ rates, 0 ≤ a ∧ a ≤ 1) :
    V3.onSeg A B (lerpRun A cur rates) := by
  induction rates generalizing cur with
  | nil => exact h
  | cons a rs ih =>
    rw [lerpRun_cons]
    exact ih (V3.onSeg_lerp_left h (hr a (List.mem_cons_self a rs)).1
        (hr a (List.mem_cons_self a rs)).2)
      (fun b hb => hr b (List.mem_cons_of_mem a hb))

theorem lerpRun_dist2_le {α : Type} [LinearOrderedField α] (t : V3 α) {cur : V3 α}
    {rates : List α} (hr : ∀ a ∈ rates, 0 ≤ a ∧ a ≤ 1) :
    V3.dist2 (lerpRun t cur rates) t ≤ V3.dist2 cur t := by
  induction rates generalizing cur with
  | nil => exact le_refl _
  | cons a rs ih =>
    rw [lerpRun_cons]
    exact le_trans (ih (fun b hb => hr b (List.mem_cons_of_mem a hb)))
      (V3.dist2_lerp_le cur t (hr a (List.mem_cons_self a rs)).1
        (hr a (List.mem_cons_self a rs)).2)

theorem lerpRun_replicate_dist2 {α : Type} [LinearOrderedField α] (t cur : V3 α)
    (a : α) (n : ℕ) :
    V3.dist2 (lerpRun t cur (List.replicate n a)) t =
      ((1 - a) ^ 2) ^ n * V3.dist2 cur t := by
  induction n generalizing cur with
  | zero => simp [lerpRun_nil]
  | succ m ih =>
    rw [List.replicate_succ, lerpRun_cons, ih, V3.dist2_lerp]
    ring

theorem tendsto_lerpRun_replicate_dist2 (t cur : V3 ℚ) {a : ℚ}
    (h0 : 0 < a) (h1 : a ≤ 1) :
    Filter.Tendsto
      (fun n : ℕ => ((V3.dist2 (lerpRun t cur (List.replicate n a)) t : ℚ) : ℝ))
      Filter.atTop (nhds 0) := by
  have hfun : (fun n : ℕ => ((V3.dist2 (lerpRun t cur (List.replicate n a)) t : ℚ) : ℝ)) =
      fun n : ℕ => (((1 - (a : ℝ)) ^ 2) ^ n) * ((V3.dist2 cur t : ℚ) : ℝ) := by
    funext n
    rw [lerpRun_replicate_dist2]
    push_cast
    ring
  rw [hfun]
  have hr0 : (0 : ℝ) ≤ (1 - (a : ℝ)) ^ 2 := sq_nonneg _
  have hr1 : (1 - (a : ℝ)) ^ 2 < 1 := by
    have ha0 : (0 : ℝ) < (a : ℝ) := by exact_mod_cast h0
    have ha1 : (a : ℝ) ≤ 1 := by exact_mod_cast h1
    nlinarith
  have := (tendsto_pow_atTop_nhds_zero_of_lt_one hr0 hr1).mul_const
    ((V3.dist2 cur t : ℚ) : ℝ)
  simpa using this

theorem foldl_lerp_eq_lerpRun {α : Type} [LinearOrderedField α] (t cur : V3 α)
    (k : α) (deltas : List α) :
    deltas.foldl (fun p δ => V3.lerp p t (δ * k)) cur =
      lerpRun t cur (deltas.map (fun δ => δ * k)) := by
  rw [lerpRun, List.foldl_map]

/-- **C1** (counterexample).  The claim quantifies over *any* sequence of
non-negative tick deltas, but the lerp factor is the plain product
`delta * k`: a fairy-light tick (`k = 2.0`) with `delta = 3/2` applies
lerp factor `3`, which throws `currentPosition` past the target, off the
chaos-to-formed segment, and strictly *increases* its distance to the
target. -/
theorem lightTick_overshoot_counterexample :
    V3.dist2 (lightTick true (3/2) ⟨0, 0, 0⟩ ⟨1, 0, 0⟩ ⟨0, 0, 0⟩) ⟨1, 0, 0⟩ >
      V3.dist2 (⟨0, 0, 0⟩ : V3 ℚ) ⟨1, 0, 0⟩ ∧
    ¬ V3.onSeg (⟨0, 0, 0⟩ : V3 ℚ) ⟨1, 0, 0⟩
        (lightTick true (3/2) ⟨0, 0, 0⟩ ⟨1, 0, 0⟩ ⟨0, 0, 0⟩) := by
  constructor
  · norm_num [lightTick, V3.lerp, V3.dist2]
  · rintro ⟨s, _, hs1, he⟩
    have hx := congrArg V3.x he
    simp [lightTick, V3.lerp] at hx
    linarith

/-- **C1** (amended).  For every per-entity-lerp class (baubles, photo
panels, seasonal elements, fairy lights) the positional tick is
`currentPos.lerp(target, delta * k)` with the class rate `k`; whenever
each applied lerp factor lies in `[0, 1]` (that is, `delta ≤ 1/k`), the
position stays on the segment between `chaosPosition` and
`formedPosition`, the distance to the selected target never increases at
any tick, and under a constant positive per-tick factor it converges
to `0` as the tick count goes to infinity.  For larger deltas the factor
exceeds `1` and the update can overshoot (see the counterexample). -/
theorem perEntity_lerp_bounded_rate_no_overshoot :
    (∀ (δ : ℚ) (c t p : V3 ℚ),
        baubleTick true δ c t p = V3.lerp p t (δ * 1.0) ∧
        baubleTick false δ c t p = V3.lerp p c (δ * 0.7) ∧
        elementTick true δ c t p = V3.lerp p t (δ * 1.5) ∧
        elementTick false δ c t p = V3.lerp p c (δ * 1.5) ∧
        lightTick true δ c t p = V3.lerp p t (δ * 2.0) ∧
        lightTick false δ c t p = V3.lerp p c (δ * 2.0)) ∧
    (∀ (δ time w ws wo : ℝ) (rs c t p : V3 ℝ),
        (photoTick true δ time w ws wo rs c t p).1 = V3.lerp p t (δ * (0.8 * w)) ∧
        (photoTick false δ time w ws wo rs c t p).1 = V3.lerp p c (δ * 0.5)) ∧
    (∀ (α : Type) [LinearOrderedField α], ∀ (A B cur : V3 α) (a : α),
        V3.onSeg A B cur → 0 ≤ a → a ≤ 1 →
        V3.dist2 (V3.lerp cur B a) B ≤ V3.dist2 cur B ∧
        V3.onSeg A B (V3.lerp cur B a) ∧ V3.onSeg A B (V3.lerp cur A a)) ∧
    (∀ (α : Type) [LinearOrderedField α], ∀ (A B cur : V3 α) (k : α) (deltas : List α),
        V3.onSeg A B cur → (∀ δ ∈ deltas, 0 ≤ δ * k ∧ δ * k ≤ 1) →
        V3.onSeg A B (deltas.foldl (fun p δ => V3.lerp p B (δ * k)) cur) ∧
        V3.dist2 (deltas.foldl (fun p δ => V3.lerp p B (δ * k)) cur) B ≤
          V3.dist2 cur B) ∧
    (∀ (t cur : V3 ℚ) (a : ℚ), 0 < a → a ≤ 1 →
        Filter.Tendsto
          (fun n : ℕ => ((V3.dist2 (lerpRun t cur (List.replicate n a)) t : ℚ) : ℝ))
          Filter.atTop (nhds 0)) := by
  refine ⟨?_, ?_, ?_, ?_, ?_⟩
  · intro δ c t p
    refine ⟨?_, ?_, ?_, ?_, ?_, ?_⟩ <;> simp [baubleTick, baubleRate, elementTick, lightTick]
  · intro δ time w ws wo rs c t p
    constructor <;> simp [photoTick]
  · intro α _ A B cur a hseg h0 h1
    exact ⟨V3.dist2_lerp_le cur B h0 h1, V3.onSeg_lerp_right hseg h0 h1,
      V3.onSeg_lerp_left hseg h0 h1⟩
  · intro α _ A B cur k deltas hseg hδ
    rw [foldl_lerp_eq_lerpRun]
    have hrates : ∀ a ∈ deltas.map (fun δ => δ * k), 0 ≤ a ∧ a ≤ 1 := by
      intro a ha
      obtain ⟨δ, hδm, rfl⟩ := List.mem_map.1 ha
      exact hδ δ hδm
    exact ⟨lerpRun_onSeg_right hseg hrates, lerpRun_dist2_le B hrates⟩
  · intro t cur a h0 h1
    exact tendsto_lerpRun_replicate_dist2 t cur h0 h1

/-- Witness for `perEntity_lerp_bounded_rate_no_overshoot` at concrete
inputs: one formed-ward bauble tick with `delta = 1/2` from the chaos
position, and convergence of the replicated run with factor `1/2`. -/
theorem perEntity_lerp_bounded_rate_no_overshoot_witness :
    (V3.onSeg (⟨5, 0, 0⟩ : V3 ℚ) ⟨0, 1, 0⟩ ⟨5, 0, 0⟩ ∧
      ((0 : ℚ) ≤ (1/2 : ℚ) * 1 ∧ (1/2 : ℚ) * 1 ≤ 1) ∧
      V3.onSeg (⟨5, 0, 0⟩ : V3 ℚ) ⟨0, 1, 0⟩
        (([(1/2 : ℚ)]).foldl (fun p δ => V3.lerp p (⟨0, 1, 0⟩ : V3 ℚ) (δ * 1)) ⟨5, 0, 0⟩)) ∧
    ((0 : ℚ) < 1/2 ∧ (1/2 : ℚ) ≤ 1 ∧
      Filter.Tendsto
        (fun n : ℕ =>
          ((V3.dist2 (lerpRun (⟨0, 1, 0⟩ : V3 ℚ) ⟨5, 0, 0⟩ (List.replicate n (1/2))) ⟨0, 1, 0⟩ : ℚ) : ℝ))
        Filter.atTop (nhds 0)) := by
  have hseg : V3.onSeg (⟨5, 0, 0⟩ : V3 ℚ) ⟨0, 1, 0⟩ ⟨5, 0, 0⟩ :=
    V3.onSeg_self_left _ _
  refine ⟨⟨hseg, by norm_num, ?_⟩, by norm_num, by norm_num, ?_⟩
  · exact (perEntity_lerp_bounded_rate_no_overshoot.2.2.2.1 ℚ ⟨5, 0, 0⟩ ⟨0, 1, 0⟩
      ⟨5, 0, 0⟩ 1 [(1/2 : ℚ)] hseg (by norm_num)).1
  · exact perEntity_lerp_bounded_rate_no_overshoot.2.2.2.2 ⟨0, 1, 0⟩ ⟨5, 0, 0⟩ (1/2)
      (by norm_num) (by norm_num)

/-- **C2** (counterexample).  The per-entity lerp rate is the plain
product `delta * k`, which is *not* framerate-independent: for a formed
bauble (`k = 1.0`) two ticks of `delta = 1` leave the position at the
target, while one tick of `delta = 2` reflects it past the target, so
composing updates with deltas `d1` and `d2` differs from one update with
`d1 + d2`. -/
theorem baubleTick_compose_counterexample :
    baubleTick true 1 ⟨0, 0, 0⟩ ⟨1, 0, 0⟩
        (baubleTick true 1 ⟨0, 0, 0⟩ ⟨1, 0, 0⟩ ⟨0, 0, 0⟩) ≠
      baubleTick true 2 ⟨0, 0, 0⟩ ⟨1, 0, 0⟩ ⟨0, 0, 0⟩ := by
  intro h
  have hx := congrArg V3.x h
  simp [baubleTick, baubleRate, V3.lerp] at hx
  norm_num at hx

/-- **C2** (amended).  Only the foliage class uses framerate-independent
exponential damping: its shared progress scalar advances with
`MathUtils.damp`, whose blend factor is `1 - exp(-lambda*delta)`
(`lambda = 1.5`), and composing two damp updates with deltas `d1` and
`d2` equals one update with `d1 + d2`.  The per-entity classes instead
use the plain delta-scaled factor `delta * k` (for baubles `k` is `1.0`
toward FORMED and `0.7` toward CHAOS), which strictly exceeds the
exponential-damping factor `1 - exp(-k*delta)` for every positive delta
and is not framerate-independent (see the counterexample). -/
theorem damping_law_by_class :
    (∀ x y lam d1 d2 : ℝ, damp (damp x y lam d1) y lam d2 = damp x y lam (d1 + d2)) ∧
    (∀ (b : Bool) (p δ : ℝ), foliageProgressTick b p δ =
        p + ((if b then 1 else 0) - p) * (1 - Real.exp (-(1.5 * δ)))) ∧
    (∀ δ : ℚ, baubleRate true δ = δ * 1 ∧ baubleRate false δ = δ * (7/10)) ∧
    (∀ δ : ℚ, 0 < δ →
        (1 : ℝ) - Real.exp (-(1 * (δ : ℝ))) < ((baubleRate true δ : ℚ) : ℝ)) := by
  refine ⟨?_, ?_, ?_, ?_⟩
  · intro x y lam d1 d2
    unfold damp lerp1
    rw [show -lam * (d1 + d2) = -lam * d1 + -lam * d2 by ring, Real.exp_add]
    ring
  · intro b p δ
    unfold foliageProgressTick damp lerp1
    rw [show -(1.5 : ℝ) * δ = -(1.5 * δ) by ring]
    ring
  · intro δ
    constructor <;> norm_num [baubleRate]
  · intro δ hδ
    have hδR : (0 : ℝ) < (δ : ℝ) := by exact_mod_cast hδ
    have h := Real.add_one_lt_exp (x := -(δ : ℝ)) (by linarith)
    have hr : ((baubleRate true δ : ℚ) : ℝ) = (δ : ℝ) := by
      push_cast [baubleRate]
      norm_num
    rw [hr, show -(1 * (δ : ℝ)) = -(δ : ℝ) by ring]
    linarith

/-- Witness for `damping_law_by_class`: the strict gap between the
code's plain rate and exponential damping at `delta = 1`. -/
theorem damping_law_by_class_witness :
    (0 : ℚ) < 1 ∧ (1 : ℝ) - Real.exp (-(1 * ((1 : ℚ) : ℝ))) < ((baubleRate true 1 : ℚ) : ℝ) :=
  ⟨by norm_num, damping_law_by_class.2.2.2 1 (by norm_num)⟩

theorem baubleRun_formed_replicate_dist2 (chaos target : V3 ℚ) (δ : ℚ) (n : ℕ) :
    V3.dist2 ((List.replicate n δ).foldl
        (fun p d => baubleTick true d chaos target p) chaos) target =
      ((1 - δ * 1.0) ^ 2) ^ n * V3.dist2 chaos target := by
  have hfn : (fun (p : V3 ℚ) (d : ℚ) => baubleTick true d chaos target p) =
      fun p d => V3.lerp p target (d * 1.0) := by
    funext p d
    simp [baubleTick, baubleRate]
  rw [hfn, foldl_lerp_eq_lerpRun, List.map_replicate, lerpRun_replicate_dist2]

/-- **C4** (counterexample).  With 5 seconds simulated as 300 ticks of
`delta = 1/60` at 60 fps, the residual contraction factor is
`(59/60)^300 ≈ 0.0065`, not small enough for the claimed `0.05` bound:
the admissible bauble with `chaosPos = (30,0,0)` and
`formedPos = (0,0,0)` ends at distance `30 * (59/60)^300 ≈ 0.19 > 0.05`
from its formed position. -/
theorem bauble_5s_formed_distance_counterexample :
    V3.dist2 ((List.replicate 300 ((1 : ℚ)/60)).foldl
        (fun p d => baubleTick true d ⟨30, 0, 0⟩ ⟨0, 0, 0⟩ p) ⟨30, 0, 0⟩) ⟨0, 0, 0⟩ >
      0.05 ^ 2 := by
  rw [baubleRun_formed_replicate_dist2]
  norm_num [V3.dist2]

/-- **C4** (amended).  After 5 seconds of FORMED-state bauble ticks at 60
fps (300 ticks of `delta = 1/60`, damping constant `1.0`), every bauble
whose chaos and formed positions lie in the constructors' ranges
(per-coordinate differences at most `43.1` horizontally and `46`
vertically) is within `0.5` units — not `0.05` — of its formed position,
excluding the wobble offset. -/
theorem bauble_5s_formed_distance_bound (chaos target : V3 ℚ)
    (hx : |chaos.x - target.x| ≤ 431/10) (hy : |chaos.y - target.y| ≤ 46)
    (hz : |chaos.z - target.z| ≤ 431/10) :
    V3.dist2 ((List.replicate 300 ((1 : ℚ)/60)).foldl
        (fun p d => baubleTick true d chaos target p) chaos) target ≤ 0.5 ^ 2 := by
  rw [baubleRun_formed_replicate_dist2]
  have hx' := abs_le.1 hx
  have hy' := abs_le.1 hy
  have hz' := abs_le.1 hz
  have hb : V3.dist2 chaos target ≤ 583122/100 := by
    unfold V3.dist2
    nlinarith [hx'.1, hx'.2, hy'.1, hy'.2, hz'.1, hz'.2]
  have hpow : (0 : ℚ) ≤ ((1 - 1/60 * 1.0) ^ 2) ^ 300 := by positivity
  calc ((1 - 1/60 * 1.0) ^ 2) ^ 300 * V3.dist2 chaos target
      ≤ ((1 - 1/60 * 1.0) ^ 2) ^ 300 * (583122/100) :=
        mul_le_mul_of_nonneg_left hb hpow
    _ ≤ 0.5 ^ 2 := by norm_num

/-- Witness for `bauble_5s_formed_distance_bound` at the admissible
bauble with `chaosPos = (0,10,0)` and `formedPos = (0,0,0)`. -/
theorem bauble_5s_formed_distance_bound_witness :
    (|((⟨0, 10, 0⟩ : V3 ℚ)).x - ((⟨0, 0, 0⟩ : V3 ℚ)).x| ≤ 431/10 ∧
     |((⟨0, 10, 0⟩ : V3 ℚ)).y - ((⟨0, 0, 0⟩ : V3 ℚ)).y| ≤ 46 ∧
     |((⟨0, 10, 0⟩ : V3 ℚ)).z - ((⟨0, 0, 0⟩ : V3 ℚ)).z| ≤ 431/10) ∧
    V3.dist2 ((List.replicate 300 ((1 : ℚ)/60)).foldl
        (fun p d => baubleTick true d ⟨0, 10, 0⟩ ⟨0, 0, 0⟩ p) ⟨0, 10, 0⟩) ⟨0, 0, 0⟩ ≤
      0.5 ^ 2 :=
  ⟨⟨by norm_num, by norm_num, by norm_num⟩,
    bauble_5s_formed_distance_bound ⟨0, 10, 0⟩ ⟨0, 0, 0⟩
      (by norm_num) (by norm_num) (by norm_num)⟩

/-- **C9** (confirmed).  In FORMED state, a photo panel's per-frame
operation trace sets the group position to the freshly lerped
`currentPos = p`, then applies the look-at constraint toward
`(p.x * 2, p.y + 0.5, p.z * 2)` — a point extrapolated from the panel's
own position, not the viewer or the origin — and only afterwards adds
the sinusoidal wobble to `rotation.x`/`rotation.z`. -/
theorem photo_formed_lookAt_own_position (δ time w ws wo : ℝ) (rs c t cur : V3 ℝ) :
    (photoTick true δ time w ws wo rs c t cur).2 =
      [PhotoOp.setPos (V3.lerp cur t (δ * (0.8 * w))),
       PhotoOp.lookAt ⟨(V3.lerp cur t (δ * (0.8 * w))).x * 2,
                       (V3.lerp cur t (δ * (0.8 * w))).y + 0.5,
                       (V3.lerp cur t (δ * (0.8 * w))).z * 2⟩,
       PhotoOp.addRotX (Real.sin (time * ws + wo) * 0.04),
       PhotoOp.addRotZ (Real.cos (time * ws * 0.8 + wo) * 0.04)] := by
  simp [photoTick]

/-! ### Lemmas bridging the source's `Math.sqrt` distance and its square -/

theorem pinchDist2_nonneg (f : Frame) : 0 ≤ pinchDist2 f := by
  unfold pinchDist2 lmDist2
  positivity

theorem pinchDistance_lt_iff (f : Frame) {c : ℚ} (hc : 0 < c) :
    pinchDistance f < (c : ℝ) ↔ pinchDist2 f < c ^ 2 := by
  unfold pinchDistance
  rw [Real.sqrt_lt' (by exact_mod_cast hc)]
  exact_mod_cast Iff.rfl

theorem lt_pinchDistance_iff (f : Frame) {c : ℚ} (hc : 0 ≤ c) :
    (c : ℝ) < pinchDistance f ↔ c ^ 2 < pinchDist2 f := by
  unfold pinchDistance
  rw [Real.lt_sqrt (by exact_mod_cast hc)]
  exact_mod_cast Iff.rfl

theorem processFrame_band (p : Bool) (f : Frame) (hg : f.gestures ≠ [])
    (hl : f.landmarks ≠ []) (h1 : ¬ (pinchDist2 f < 0.05 ^ 2))
    (h2 : ¬ (pinchDist2 f > 0.08 ^ 2)) :
    (processFrame p f).1 = p ∧ ∀ e ∈ (processFrame p f).2, isPinchEv e = false := by
  rcases f with ⟨gs, lms⟩
  cases gs with
  | nil => simp at hg
  | cons g0 gr =>
    cases lms with
    | nil => simp at hl
    | cons l0 lr =>
      simp only [processFrame]
      rw [if_neg (fun hh => h1 hh.1), if_neg (fun hh => h2 hh.2)]
      refine ⟨rfl, ?_⟩
      intro e he
      simp only [List.mem_append, List.mem_cons, List.mem_singleton,
        List.not_mem_nil] at he
      split_ifs at he <;> simp_all <;> rcases he with rfl | rfl <;> rfl

/-- **C3** (confirmed).  The pinch hysteresis: with the hand present,
RELEASED→PINCHING happens only on a frame whose thumb/index distance is
below the closing threshold `0.05` with the classified gesture not
`Closed_Fist`; PINCHING→RELEASED happens only on a frame whose distance
exceeds the opening threshold `0.08`; a whole sequence of frames whose
distances lie strictly between the thresholds changes nothing and emits
no pinch event; and any frame that flips the state emits exactly one
pinch edge event. -/
theorem pinch_hysteresis_transitions :
    (∀ f : Frame, (processFrame false f).1 = true →
        pinchDistance f < 0.05 ∧ (topGesture f).name ≠ "Closed_Fist") ∧
    (∀ f : Frame, f.gestures ≠ [] → f.landmarks ≠ [] →
        (processFrame true f).1 = false → (0.08 : ℝ) < pinchDistance f) ∧
    (∀ (p : Bool) (fs : List Frame),
        (∀ f ∈ fs, f.gestures ≠ [] ∧ f.landmarks ≠ [] ∧
            (0.05 : ℝ) < pinchDistance f ∧ pinchDistance f < 0.08) →
        (runFrames p fs).1 = p ∧ ∀ e ∈ (runFrames p fs).2, isPinchEv e = false) ∧
    (∀ (p : Bool) (f : Frame), (processFrame p f).1 ≠ p →
        ((processFrame p f).2.filter isPinchEv).length = 1) := by
  have hcast05 : (((0.05 : ℚ) : ℝ)) = (0.05 : ℝ) := by norm_num
  have hcast08 : (((0.08 : ℚ) : ℝ)) = (0.08 : ℝ) := by norm_num
  refine ⟨?_, ?_, ?_, ?_⟩
  · intro f h
    have hq : pinchDist2 f < 0.05 ^ 2 ∧ (topGesture f).name ≠ "Closed_Fist" := by
      rcases f with ⟨gs, lms⟩
      cases gs with
      | nil => simp [processFrame] at h
      | cons g0 gr =>
        cases lms with
        | nil => simp [processFrame] at h
        | cons l0 lr =>
          simp only [processFrame] at h
          split_ifs at h <;> simp_all
    refine ⟨?_, hq.2⟩
    rw [← hcast05]
    exact (pinchDistance_lt_iff f (by norm_num)).2 hq.1
  · intro f hg hl h
    have hq : pinchDist2 f > 0.08 ^ 2 := by
      rcases f with ⟨gs, lms⟩
      cases gs with
      | nil => simp at hg
      | cons g0 gr =>
        cases lms with
        | nil => simp at hl
        | cons l0 lr =>
          simp only [processFrame] at h
          split_ifs at h <;> simp_all
    rw [← hcast08]
    exact (lt_pinchDistance_iff f (by norm_num)).2 hq
  · intro p fs
    induction fs generalizing p with
    | nil => exact fun _ => ⟨rfl, by simp [runFrames]⟩
    | cons f fs ih =>
      intro hband
      have hf := hband f (List.mem_cons_self f fs)
      have hne1 : ¬ (pinchDist2 f < 0.05 ^ 2) := by
        have := (lt_pinchDistance_iff f (c := 0.05) (by norm_num)).1
          (by rw [hcast05]; exact hf.2.2.1)
        exact fun hlt => absurd this (not_lt.2 (le_of_lt hlt))
      have hne2 : ¬ (pinchDist2 f > 0.08 ^ 2) := by
        have := (pinchDistance_lt_iff f (c := 0.08) (by norm_num)).1
          (by rw [hcast08]; exact hf.2.2.2)
        exact fun hgt => absurd this (not_lt.2 (le_of_lt hgt))
      have hb := processFrame_band p f hf.1 hf.2.1 hne1 hne2
      have hrest := ih p (fun f' hf' => hband f' (List.mem_cons_of_mem f hf'))
      simp only [runFrames]
      rw [hb.1]
      refine ⟨hrest.1, ?_⟩
      intro e he
      rcases List.mem_append.1 he with hm | hm
      · exact hb.2 e hm
      · exact hrest.2 e hm
  · intro p f h
    rcases f with ⟨gs, lms⟩
    cases gs with
    | nil =>
      cases p with
      | false => simp [processFrame] at h
      | true => simp [processFrame, isPinchEv]
    | cons g0 gr =>
      cases lms with
      | nil => simp [processFrame] at h
      | cons l0 lr =>
        cases p <;> simp only [processFrame] at h ⊢ <;> split_ifs at h ⊢ <;>
          simp_all [isPinchEv]

/-- Witness for `pinch_hysteresis_transitions`: a frame with thumb/index
distance `0.06` (inside the band) flips nothing and emits no pinch
event. -/
theorem pinch_hysteresis_transitions_witness :
    (∀ f ∈ [bandFrame], f.gestures ≠ [] ∧ f.landmarks ≠ [] ∧
        (0.05 : ℝ) < pinchDistance f ∧ pinchDistance f < 0.08) ∧
    (runFrames false [bandFrame]).1 = false ∧
    ∀ e ∈ (runFrames false [bandFrame]).2, isPinchEv e = false := by
  have hd : pinchDist2 bandFrame = 9/2500 := by
    simp [pinchDist2, lmDist2, handLandmarks, bandFrame]
    norm_num
  have hband : ∀ f ∈ [bandFrame], f.gestures ≠ [] ∧ f.landmarks ≠ [] ∧
      (0.05 : ℝ) < pinchDistance f ∧ pinchDistance f < 0.08 := by
    intro f hf
    simp only [List.mem_singleton] at hf
    subst hf
    refine ⟨by simp [bandFrame], by simp [bandFrame], ?_, ?_⟩
    · rw [show (0.05 : ℝ) = ((0.05 : ℚ) : ℝ) by norm_num]
      exact (lt_pinchDistance_iff bandFrame (by norm_num)).2 (by rw [hd]; norm_num)
    · rw [show (0.08 : ℝ) = ((0.08 : ℚ) : ℝ) by norm_num]
      exact (pinchDistance_lt_iff bandFrame (by norm_num)).2 (by rw [hd]; norm_num)
  exact ⟨hband, pinch_hysteresis_transitions.2.2.1 false [bandFrame] hband⟩

/-- **C5** (confirmed).  On a frame with no hand, the controller emits
rotation velocity exactly `0`; if it was PINCHING it emits exactly one
pinch-end event and moves to RELEASED, and if it was already RELEASED it
emits no pinch event at all. -/
theorem no_hand_reset (p : Bool) (f : Frame) (hg : f.gestures = [])
    (hl : f.landmarks = []) :
    (processFrame p f).1 = false ∧
    Ev.move 0 ∈ (processFrame p f).2 ∧
    (p = true → (processFrame p f).2.filter isPinchEv = [Ev.pinch false]) ∧
    (p = false → (processFrame p f).2.filter isPinchEv = []) := by
  rcases f with ⟨gs, lms⟩
  cases hg
  cases hl
  cases p <;> simp [processFrame, isPinchEv]

/-- Witness for `no_hand_reset`: the empty frame while PINCHING. -/
theorem no_hand_reset_witness :
    ((⟨[], []⟩ : Frame).gestures = []) ∧
    ((⟨[], []⟩ : Frame).landmarks = []) ∧
    ((processFrame true ⟨[], []⟩).1 = false ∧
     Ev.move 0 ∈ (processFrame true ⟨[], []⟩).2 ∧
     (true = true → (processFrame true ⟨[], []⟩).2.filter isPinchEv = [Ev.pinch false]) ∧
     (true = false → (processFrame true ⟨[], []⟩).2.filter isPinchEv = [])) :=
  ⟨rfl, rfl, no_hand_reset true ⟨[], []⟩ rfl rfl⟩

/-- **C6** (confirmed).  Outside the deadzone the rotation-velocity
mapping is odd: offsets `+v` and `-v` yield velocities equal in
magnitude and opposite in sign. -/
theorem rotation_velocity_odd (v : ℚ) (hv : deadzone < v) :
    targetSpeedOfOffset (-v) = - targetSpeedOfOffset v ∧
    |targetSpeedOfOffset (-v)| = |targetSpeedOfOffset v| := by
  have hv0 : 0 < v := lt_trans (by norm_num [deadzone]) hv
  have h1 : targetSpeedOfOffset (-v) = - targetSpeedOfOffset v := by
    unfold targetSpeedOfOffset
    rw [abs_neg, abs_of_pos hv0, if_pos hv, if_pos hv,
      if_neg (by linarith : ¬ (-v > 0)), if_pos hv0]
    ring
  exact ⟨h1, by rw [h1, abs_neg]⟩

/-- Witness for `rotation_velocity_odd` at `v = 0.1`. -/
theorem rotation_velocity_odd_witness :
    deadzone < (1/10 : ℚ) ∧
    (targetSpeedOfOffset (-(1/10)) = - targetSpeedOfOffset (1/10) ∧
     |targetSpeedOfOffset (-(1/10))| = |targetSpeedOfOffset (1/10)|) :=
  ⟨by norm_num [deadzone], rotation_velocity_odd (1/10) (by norm_num [deadzone])⟩

/-- **C7** (confirmed).  Any offset whose magnitude is at most the
deadzone `0.05` (boundary included) yields velocity exactly `0`; beyond
it the velocity is `-(sign(rawOffset) * (|rawOffset| - deadzone)) *
sensitivity`; and a frame whose primary landmark sits at `x = 0.3`
yields exactly `-0.225`. -/
theorem rotation_velocity_formula :
    (∀ raw : ℚ, |raw| ≤ deadzone → targetSpeedOfOffset raw = 0) ∧
    (∀ raw : ℚ, deadzone < |raw| →
        targetSpeedOfOffset raw =
          -((if 0 < raw then 1 else -1) * (|raw| - deadzone)) * sensitivity) ∧
    (∀ (p : Bool) (f : Frame), f.gestures ≠ [] → f.landmarks ≠ [] →
        ((handLandmarks f).getD 0 default).x = 3/10 →
        Ev.move (-0.225) ∈ (processFrame p f).2 ∧
        ∀ v : ℚ, Ev.move v ∈ (processFrame p f).2 → v = -0.225) := by
  refine ⟨?_, ?_, ?_⟩
  · intro raw h
    unfold targetSpeedOfOffset
    rw [if_neg (not_lt.2 h)]
  · intro raw h
    unfold targetSpeedOfOffset
    rw [if_pos h]
    by_cases h0 : raw > 0
    · rw [if_pos h0, if_pos h0, abs_of_pos h0]
      ring
    · have hne : raw < 0 := by
        rcases lt_trichotomy raw 0 with hlt | rfl | hgt
        · exact hlt
        · simp [deadzone] at h
          linarith
        · exact absurd hgt h0
      rw [if_neg h0, if_neg (by linarith : ¬ (0 < raw)), abs_of_neg hne]
      ring
  · intro p f hg hl hx
    rcases f with ⟨gs, lms⟩
    cases gs with
    | nil => simp at hg
    | cons g0 gr =>
      cases lms with
      | nil => simp at hl
      | cons l0 lr =>
        have hs : computeTargetSpeed
            ((handLandmarks ⟨g0 :: gr, l0 :: lr⟩).getD 0 default).x = -0.225 := by
          rw [hx]
          unfold computeTargetSpeed targetSpeedOfOffset
          norm_num [deadzone, sensitivity, abs_of_pos]
        have hs2 : computeTargetSpeed
            (((handLandmarks ⟨g0 :: gr, l0 :: lr⟩)[0]?).getD default).x = -0.225 := by
          rw [← List.getD_eq_getElem?_getD]
          exact hs
        constructor
        · simp only [processFrame]
          split_ifs <;> simp [hs, hs2]
        · intro v hv
          simp only [processFrame] at hv
          split_ifs at hv <;> simp_all [hs, hs2]

/-- Witness for `rotation_velocity_formula`: the deadzone boundary
offset `0.05` and the concrete frame with `x = 0.3`. -/
theorem rotation_velocity_formula_witness :
    (|(1/20 : ℚ)| ≤ deadzone ∧ targetSpeedOfOffset (1/20) = 0) ∧
    (leftHandFrame.gestures ≠ [] ∧ leftHandFrame.landmarks ≠ [] ∧
     ((handLandmarks leftHandFrame).getD 0 default).x = 3/10 ∧
     Ev.move (-0.225) ∈ (processFrame false leftHandFrame).2 ∧
     ∀ v : ℚ, Ev.move v ∈ (processFrame false leftHandFrame).2 → v = -0.225) := by
  have hx : ((handLandmarks leftHandFrame).getD 0 default).x = 3/10 := by
    simp [handLandmarks, leftHandFrame]
  have h3 := rotation_velocity_formula.2.2 false leftHandFrame
    (by simp [leftHandFrame]) (by simp [leftHandFrame]) hx
  have habs : |(1/20 : ℚ)| ≤ deadzone := by
    rw [abs_of_pos (by norm_num : (0 : ℚ) < 1/20)]
    norm_num [deadzone]
  exact ⟨⟨habs, rotation_velocity_formula.1 (1/20) habs⟩,
    by simp [leftHandFrame], by simp [leftHandFrame], hx, h3.1, h3.2⟩

/-- **C10** (confirmed).  Rotation-velocity and pinch processing run only
on frames whose recognition result carries at least one classified
gesture: a frame with landmarks but an empty gesture list is processed
exactly like a no-hand frame (velocity `0`, forced pinch release).  The
`0.4` confidence threshold gates only the CHAOS/FORMED scene-state
commands: replacing the top gesture's score changes neither the pinch
state nor any non-command event, and a top score at most `0.4` yields no
command event at all. -/
theorem gesture_gating_and_score_independence :
    (∀ (p : Bool) (lms : List (List Landmark)),
        processFrame p ⟨[], lms⟩ = processFrame p ⟨[], []⟩ ∧
        processFrame p ⟨[], lms⟩ =
          (false, Ev.move 0 :: (if p then [Ev.pinch false] else []))) ∧
    (∀ (p : Bool) (f : Frame) (s : ℚ),
        (processFrame p (setTopScore f s)).1 = (processFrame p f).1 ∧
        (processFrame p (setTopScore f s)).2.filter (fun e => !isCmdEv e) =
          (processFrame p f).2.filter (fun e => !isCmdEv e)) ∧
    (∀ (p : Bool) (f : Frame), (topGesture f).score ≤ 0.4 →
        (processFrame p f).2.filter isCmdEv = []) := by
  refine ⟨?_, ?_, ?_⟩
  · intro p lms
    exact ⟨rfl, rfl⟩
  · intro p f s
    rcases f with ⟨gs, lms⟩
    cases gs with
    | nil => exact ⟨rfl, rfl⟩
    | cons g0 gr =>
      cases g0 with
      | nil => exact ⟨rfl, rfl⟩
      | cons g gtail =>
        cases lms with
        | nil =>
          constructor
          · rfl
          · simp only [setTopScore, processFrame, topGesture, List.headD_cons]
            split_ifs <;> simp [isCmdEv]
        | cons l0 lr =>
          constructor <;>
            (simp only [setTopScore, processFrame, topGesture, pinchDist2,
              handLandmarks, lmDist2, computeTargetSpeed, List.headD_cons]
             split_ifs <;> simp [isCmdEv])
  · intro p f h
    rcases f with ⟨gs, lms⟩
    cases gs with
    | nil => cases p <;> simp [processFrame, isCmdEv]
    | cons g0 gr =>
      cases lms with
      | nil =>
        simp only [processFrame]
        rw [if_neg (not_lt.2 h)]
        simp
      | cons l0 lr =>
        simp only [processFrame]
        rw [if_neg (not_lt.2 h)]
        split_ifs <;> simp [isCmdEv]

/-- Witness for `gesture_gating_and_score_independence`: a frame whose
top gesture is `Open_Palm` at confidence `0.3` emits no scene-state
command. -/
theorem gesture_gating_and_score_independence_witness :
    (topGesture lowScoreFrame).score ≤ 0.4 ∧
    (processFrame false lowScoreFrame).2.filter isCmdEv = [] := by
  have h : (topGesture lowScoreFrame).score ≤ 0.4 := by
    simp [topGesture, lowScoreFrame]
    norm_num
  exact ⟨h, gesture_gating_and_score_independence.2.2 false lowScoreFrame h⟩

theorem getTreePosition_eq (u1 u2 u3 : ℝ) :
    getTreePosition u1 u2 u3 =
      ⟨u3 * (9 * (1 - u1)) * Real.cos (u2 * Real.pi * 2),
       u1 * 22 - 11,
       u3 * (9 * (1 - u1)) * Real.sin (u2 * Real.pi * 2)⟩ := by
  unfold getTreePosition treeHeight treeRadius
  apply V3.ext <;> simp <;> ring_nf

theorem sqrt_polar (r θ : ℝ) (hr : 0 ≤ r) :
    Real.sqrt ((r * Real.cos θ) ^ 2 + (r * Real.sin θ) ^ 2) = r := by
  have h : (r * Real.cos θ) ^ 2 + (r * Real.sin θ) ^ 2 = r ^ 2 := by
    have hc := Real.sin_sq_add_cos_sq θ
    nlinarith
  rw [h, Real.sqrt_sq hr]

theorem getTree_y (u1 u2 u3 : ℝ) : (getTreePosition u1 u2 u3).y = u1 * 22 - 11 := by
  rw [getTreePosition_eq]

theorem coneRadiusAt_getTree_y (u1 u2 u3 : ℝ) :
    coneRadiusAt ((getTreePosition u1 u2 u3).y) = 9 * (1 - u1) := by
  rw [getTree_y]
  unfold coneRadiusAt treeRadius treeHeight
  ring

theorem horizDist_getTree (u1 u2 u3 : ℝ) (h3 : 0 ≤ u3) (h1 : u1 ≤ 1) :
    horizDist (getTreePosition u1 u2 u3) = u3 * (9 * (1 - u1)) := by
  rw [getTreePosition_eq]
  unfold horizDist
  exact sqrt_polar _ _ (mul_nonneg h3 (by nlinarith))

theorem volume_radial_band (u1 u2 t : ℝ) (h1a : 0 ≤ u1) (h1b : u1 < 1)
    (ht0 : 0 ≤ t) (ht1 : t ≤ 1) :
    MeasureTheory.volume {u3 : ℝ | u3 ∈ Set.Icc (0 : ℝ) 1 ∧
        horizDist (getTreePosition u1 u2 u3) ≤ t * (9 * (1 - u1))} =
      ENNReal.ofReal t := by
  have hR : (0 : ℝ) < 9 * (1 - u1) := by nlinarith
  have hset : {u3 : ℝ | u3 ∈ Set.Icc (0 : ℝ) 1 ∧
      horizDist (getTreePosition u1 u2 u3) ≤ t * (9 * (1 - u1))} = Set.Icc 0 t := by
    ext u3
    simp only [Set.mem_setOf_eq, Set.mem_Icc]
    constructor
    · rintro ⟨⟨h0, _⟩, hd⟩
      rw [horizDist_getTree u1 u2 u3 h0 (le_of_lt h1b)] at hd
      exact ⟨h0, (mul_le_mul_right hR).mp hd⟩
    · rintro ⟨h0, hle⟩
      refine ⟨⟨h0, le_trans hle ht1⟩, ?_⟩
      rw [horizDist_getTree u1 u2 u3 h0 (le_of_lt h1b)]
      exact mul_le_mul_of_nonneg_right hle (le_of_lt hR)
  rw [hset, Real.volume_Icc]
  norm_num

/-- **C8** (counterexample).  `getTreePosition` draws the radial
coordinate as `r = u3 * currentRadius` with `u3` uniform, so at the base
height the fraction of samples within half the cone radius is `1/2`;
uniform-by-area sampling of that disk would put only `1/4` there: the
generator is *not* uniform by area within the disk. -/
theorem tree_radial_sampling_counterexample :
    MeasureTheory.volume {u3 : ℝ | u3 ∈ Set.Icc (0 : ℝ) 1 ∧
        horizDist (getTreePosition 0 0 u3) ≤ treeRadius / 2} =
      ENNReal.ofReal (1/2) ∧
    areaUniformProb (treeRadius / 2) treeRadius = 1/4 ∧
    ENNReal.ofReal ((1 : ℝ)/2) ≠ ENNReal.ofReal ((1 : ℝ)/4) := by
  refine ⟨?_, ?_, ?_⟩
  · rw [show treeRadius / 2 = (1/2 : ℝ) * (9 * (1 - 0)) by unfold treeRadius; norm_num]
    exact volume_radial_band 0 0 (1/2) le_rfl (by norm_num) (by norm_num) (by norm_num)
  · unfold areaUniformProb treeRadius
    rw [div_eq_iff (by positivity : Real.pi * (9 : ℝ) ^ 2 ≠ 0)]
    ring
  · rw [Ne, ENNReal.ofReal_eq_ofReal_iff (by norm_num) (by norm_num)]
    norm_num

/-- **C8** (amended).  For draws `u1, u2, u3 ∈ [0,1)`, the generated
point has horizontal distance at most the cone radius
`R * (1 - (y + H/2)/H)` at its own height `y`, the height is uniform
over `[-H/2, H/2)` (it is the affine image `u1*H - H/2` of the raw
draw), and the angle is `θ = u2·2π ∈ [0, 2π)`.  The radial coordinate,
however, is sampled uniformly *in radius* — the fraction of draws
landing within `t` times the cone radius is exactly `t` — and not
uniformly by area (which would give `t²`). -/
theorem tree_position_cone_uniform_radius :
    (∀ u1 u2 u3 : ℝ, 0 ≤ u1 → u1 ≤ 1 → 0 ≤ u3 → u3 ≤ 1 →
        horizDist (getTreePosition u1 u2 u3) ≤
          coneRadiusAt ((getTreePosition u1 u2 u3).y)) ∧
    (∀ u1 u2 u3 : ℝ, 0 ≤ u1 → u1 < 1 →
        -(treeHeight / 2) ≤ (getTreePosition u1 u2 u3).y ∧
        (getTreePosition u1 u2 u3).y < treeHeight / 2) ∧
    (∀ u1 u2 u3 : ℝ, 0 ≤ u2 → u2 < 1 →
        (getTreePosition u1 u2 u3).x =
          u3 * (9 * (1 - u1)) * Real.cos (u2 * Real.pi * 2) ∧
        (getTreePosition u1 u2 u3).z =
          u3 * (9 * (1 - u1)) * Real.sin (u2 * Real.pi * 2) ∧
        0 ≤ u2 * Real.pi * 2 ∧ u2 * Real.pi * 2 < 2 * Real.pi) ∧
    (∀ u1 u2 t : ℝ, 0 ≤ u1 → u1 < 1 → 0 ≤ t → t ≤ 1 →
        MeasureTheory.volume {u3 : ℝ | u3 ∈ Set.Icc (0 : ℝ) 1 ∧
            horizDist (getTreePosition u1 u2 u3) ≤
              t * coneRadiusAt ((getTreePosition u1 u2 u3).y)} =
          ENNReal.ofReal t) := by
  refine ⟨?_, ?_, ?_, ?_⟩
  · intro u1 u2 u3 h1a h1b h3a h3b
    rw [horizDist_getTree u1 u2 u3 h3a h1b, coneRadiusAt_getTree_y]
    nlinarith
  · intro u1 u2 u3 h1a h1b
    rw [getTree_y]
    unfold treeHeight
    constructor <;> nlinarith
  · intro u1 u2 u3 h2a h2b
    refine ⟨by rw [getTreePosition_eq], by rw [getTreePosition_eq], ?_, ?_⟩
    · positivity
    · nlinarith [Real.pi_pos]
  · intro u1 u2 t h1a h1b ht0 ht1
    have hset : {u3 : ℝ | u3 ∈ Set.Icc (0 : ℝ) 1 ∧
        horizDist (getTreePosition u1 u2 u3) ≤
          t * coneRadiusAt ((getTreePosition u1 u2 u3).y)} =
        {u3 : ℝ | u3 ∈ Set.Icc (0 : ℝ) 1 ∧
          horizDist (getTreePosition u1 u2 u3) ≤ t * (9 * (1 - u1))} := by
      ext u3
      rw [Set.mem_setOf_eq, Set.mem_setOf_eq, coneRadiusAt_getTree_y]
    rw [hset]
    exact volume_radial_band u1 u2 t h1a h1b ht0 ht1

/-- Witness for `tree_position_cone_uniform_radius`: the in-cone bound
at `u1 = u2 = u3 = 1/2` and the radial distribution at `t = 1/3` on the
base disk. -/
theorem tree_position_cone_uniform_radius_witness :
    ((0 : ℝ) ≤ 1/2 ∧ (1/2 : ℝ) ≤ 1 ∧
      horizDist (getTreePosition (1/2) (1/2) (1/2)) ≤
        coneRadiusAt ((getTreePosition (1/2) (1/2) (1/2)).y)) ∧
    ((0 : ℝ) ≤ 1/3 ∧ (1/3 : ℝ) ≤ 1 ∧
      MeasureTheory.volume {u3 : ℝ | u3 ∈ Set.Icc (0 : ℝ) 1 ∧
          horizDist (getTreePosition 0 0 u3) ≤
            (1/3) * coneRadiusAt ((getTreePosition 0 0 u3).y)} =
        ENNReal.ofReal (1/3)) :=
  ⟨⟨by norm_num, by norm_num,
      tree_position_cone_uniform_radius.1 (1/2) (1/2) (1/2)
        (by norm_num) (by norm_num) (by norm_num) (by norm_num)⟩,
   ⟨by norm_num, by norm_num,
      tree_position_cone_uniform_radius.2.2.2 0 0 (1/3)
        le_rfl (by norm_num) (by norm_num) (by norm_num)⟩⟩
